import Mathlib

/-!
# Verification of the tesse-interface coordinate-frame and camera-intrinsics core

Shallow embedding of `src/ROS/tesse_ros_bridge/src/tesse_ros_bridge/utils.py`.

Conventions of the embedding:
* `float64` values are modelled by exact fields: `ℚ` for the frame-transform
  pipeline (pure ring/field arithmetic) and `ℝ` for the camera-intrinsics
  pipeline (which uses `tan`/`arctan`).
* Python `assert` statements become staged guards: a function that can fail
  returns `Option`/`Except`, with one error tag per `assert` site, tested in
  the source's order before the code after the assert runs.
* The module-level constants `enu_T_unity`, `blh_T_brh`, `brh_T_blh` and
  `gravity_enu` are imported by `utils.py` from the `tesse_ros_bridge`
  package `__init__`, which is not part of the sources; every function that
  reads one of them takes it as an explicit parameter instead, and the
  theorems quantify over it.
* Vectors are `Fin 3 → ℚ` (or `Fin 4 → ℚ`), matrices are Mathlib `Matrix`.
-/

namespace Tesse

/-- 4×4 homogeneous transform over `ℚ`. -/
abbrev M4 : Type := Matrix (Fin 4) (Fin 4) ℚ

/-- 3×3 rotation block over `ℚ`. -/
abbrev M3 : Type := Matrix (Fin 3) (Fin 3) ℚ

/-- Top-left 3×3 block of a 4×4 matrix: the numpy slice `T[:3,:3]`
(`get_rotation_mat` in `utils.py` and the inline slices at lines 174, 362). -/
def rot3 (T : M4) : M3 := fun i j => T i.castSucc j.castSucc

/-- The last row of a homogeneous transform is `[0,0,0,1]`. -/
def IsHomRow (T : M4) : Prop := ∀ j : Fin 4, T 3 j = if j = 3 then 1 else 0

/-- A 3×3 block is an orthonormal rotation: `Rᵀ·R = I` and `det R = 1`. -/
def OrthoRot (R : M3) : Prop := R.transpose * R = 1 ∧ R.det = 1

/-! ## AccelerationEstimator: `get_acc_brh` (utils.py lines 448-479)

The Python body is
```
assert(dt >= 0.0)
vel_enu = enu_R_brh.dot(vel_brh)
prev_vel_enu = prev_enu_R_brh.dot(prev_vel_brh)
accel_enu = (vel_enu - prev_vel_enu) / dt
return np.transpose(enu_R_brh).dot(accel_enu)
```
The failed `assert` (an `AssertionError`) is embedded as `none`; everything
after the assert only runs — and is only defined — in the `some` branch. -/

/-- `get_acc_brh(enu_R_brh, vel_brh, prev_vel_brh, prev_enu_R_brh, dt)`:
body-frame finite-difference acceleration, `none` exactly when the
`assert(dt >= 0.0)` guard fires. -/
def get_acc_brh (enu_R_brh : M3) (vel_brh prev_vel_brh : Fin 3 → ℚ)
    (prev_enu_R_brh : M3) (dt : ℚ) : Option (Fin 3 → ℚ) :=
  if 0 ≤ dt then
    let vel_enu := enu_R_brh.mulVec vel_brh
    let prev_vel_enu := prev_enu_R_brh.mulVec prev_vel_brh
    let accel_enu := fun i => (vel_enu - prev_vel_enu) i / dt
    some (enu_R_brh.transpose.mulVec accel_enu)
  else none

/-- C1: for `dt > 0` the acceleration estimator returns exactly
`R_tᵀ · ((R_t·v_t − R_prev·v_prev) / dt)`: both velocities lifted to the ENU
world frame, finite-differenced, divided by `dt`, and projected back into the
current body frame. -/
theorem get_acc_brh_formula (R_t : M3) (v_t v_prev : Fin 3 → ℚ) (R_prev : M3)
    (dt : ℚ) (hdt : 0 < dt) :
    get_acc_brh R_t v_t v_prev R_prev dt =
      some (R_t.transpose.mulVec
        (fun i => (R_t.mulVec v_t - R_prev.mulVec v_prev) i / dt)) := by
  unfold get_acc_brh
  rw [if_pos (le_of_lt hdt)]

theorem get_acc_brh_formula_witness :
    (0:ℚ) < 2 ∧
    get_acc_brh 1 ![2, 4, 6] ![0, 0, 0] 1 2 =
      some ((1 : M3).transpose.mulVec
        (fun i => ((1 : M3).mulVec ![2, 4, 6] - (1 : M3).mulVec ![0, 0, 0]) i / 2)) :=
  ⟨by norm_num, get_acc_brh_formula 1 ![2, 4, 6] ![0, 0, 0] 1 2 (by norm_num)⟩

/-- C3: the acceleration estimator fails — returning `none` before any of the
lifting/differencing/projection arithmetic is performed — exactly when
`dt < 0`; for `dt ≥ 0` the precondition check passes and a result is
produced. -/
theorem get_acc_brh_guard (R_t : M3) (v_t v_prev : Fin 3 → ℚ) (R_prev : M3)
    (dt : ℚ) :
    get_acc_brh R_t v_t v_prev R_prev dt = none ↔ dt < 0 := by
  unfold get_acc_brh
  split_ifs with h
  · exact iff_of_false (by simp) (not_lt.mpr h)
  · exact iff_of_true rfl (not_le.mp h)

theorem get_acc_brh_guard_witness :
    get_acc_brh 1 ![1, 1, 1] ![0, 0, 0] 1 (-1) = none ↔ (-1 : ℚ) < 0 :=
  get_acc_brh_guard 1 ![1, 1, 1] ![0, 0, 0] 1 (-1)

/-! ## FrameConverter: `convert_coordinate_frame` (utils.py lines 386-411)

The Python body is
```
unity_T_blh = tf.transformations.quaternion_matrix(metadata['quaternion'])
unity_T_blh[:,3] = np.array(metadata['position'] + [1])
enu_T_blh = enu_T_unity.dot(unity_T_blh)
enu_T_brh = enu_T_blh.dot(blh_T_brh)
return enu_T_brh
```
`tf.transformations.quaternion_matrix` (the standard `transformations.py`
routine) normalises the quaternion with the factor `2/‖q‖²`, so every entry of
the resulting matrix is a rational function of the raw components and the
routine embeds exactly over `ℚ`; its `nq < _EPS` guard uses
`_EPS = 4·2⁻⁵² = 2⁻⁵⁰`. -/

/-- `tf.transformations.quaternion_matrix(q)` for `q = (x,y,z,w)`: the 4×4
homogeneous matrix whose rotation block is the rotation of `q` (with the
`2/‖q‖²` normalisation of `transformations.py`) and whose translation is
zero; the identity when `‖q‖² < _EPS = 2⁻⁵⁰`. -/
def quaternion_matrix (q : Fin 4 → ℚ) : M4 :=
  let nq := q 0 * q 0 + q 1 * q 1 + q 2 * q 2 + q 3 * q 3
  if nq < 1 / 2 ^ 50 then 1
  else
    let s := 2 / nq
    !![1 - s * (q 1 * q 1 + q 2 * q 2), s * (q 0 * q 1 - q 2 * q 3), s * (q 0 * q 2 + q 1 * q 3), 0;
       s * (q 0 * q 1 + q 2 * q 3), 1 - s * (q 0 * q 0 + q 2 * q 2), s * (q 1 * q 2 - q 0 * q 3), 0;
       s * (q 0 * q 2 - q 1 * q 3), s * (q 1 * q 2 + q 0 * q 3), 1 - s * (q 0 * q 0 + q 1 * q 1), 0;
       0, 0, 0, 1]

/-- The homogeneous column `[p_x, p_y, p_z, 1]` written by the numpy slice
assignment `unity_T_blh[:,3] = np.array(metadata['position'] + [1])`. -/
def homCol (p : Fin 3 → ℚ) : Fin 4 → ℚ := ![p 0, p 1, p 2, 1]

/-- `convert_coordinate_frame(metadata)`.  The module-level constants
`enu_T_unity` and `blh_T_brh` (defined in the `tesse_ros_bridge` package
`__init__`, outside the sources) are taken as parameters; `position` and
`quaternion` are the two metadata fields the function reads. -/
def convert_coordinate_frame (enu_T_unity blh_T_brh : M4)
    (position : Fin 3 → ℚ) (quaternion : Fin 4 → ℚ) : M4 :=
  let unity_T_blh := Matrix.updateColumn (quaternion_matrix quaternion) 3 (homCol position)
  let enu_T_blh := enu_T_unity * unity_T_blh
  let enu_T_brh := enu_T_blh * blh_T_brh
  enu_T_brh

/-- C2: the frame converter returns
`enu_T_unity · unity_T_blh · blh_T_brh`, where `unity_T_blh` is the
quaternion's homogeneous matrix with its fourth column overwritten by the
position: its rotation block is the quaternion's rotation block, its
translation column is `p`, its homogeneous row is `[0,0,0,1]`; `enu_T_unity`
is the left factor and `blh_T_brh` the right factor, in that order. -/
theorem convert_coordinate_frame_spec (enu_T_unity blh_T_brh : M4)
    (p : Fin 3 → ℚ) (q : Fin 4 → ℚ) :
    convert_coordinate_frame enu_T_unity blh_T_brh p q =
      enu_T_unity * Matrix.updateColumn (quaternion_matrix q) 3 (homCol p) * blh_T_brh
    ∧ rot3 (Matrix.updateColumn (quaternion_matrix q) 3 (homCol p)) = rot3 (quaternion_matrix q)
    ∧ (∀ i : Fin 3, Matrix.updateColumn (quaternion_matrix q) 3 (homCol p) i.castSucc 3 = p i)
    ∧ IsHomRow (Matrix.updateColumn (quaternion_matrix q) 3 (homCol p)) := by
  refine ⟨rfl, ?_, ?_, ?_⟩
  · funext i j
    have hj : j.castSucc ≠ (3 : Fin 4) := by
      intro h
      have := congrArg Fin.val h
      simp [Fin.castSucc, Fin.castAdd, Fin.castLE] at this
      omega
    simp [rot3, Matrix.updateColumn_ne hj]
  · intro i
    rw [Matrix.updateColumn_self]
    fin_cases i <;> rfl
  · intro j
    by_cases hj : j = 3
    · subst hj
      simp [Matrix.updateColumn_self, homCol]
    · rw [if_neg hj, Matrix.updateColumn_ne hj]
      have : quaternion_matrix q 3 j = 0 := by
        unfold quaternion_matrix
        split_ifs with h
        · simp [Matrix.one_apply, Ne.symm hj]
        · fin_cases j
          · rfl
          · rfl
          · rfl
          · exact absurd rfl hj
      exact this

/-! ## Orthonormality of the FrameConverter output (claim C9) -/

/-- The rotation block of a product is the product of the rotation blocks,
whenever the right factor has homogeneous last row `[0,0,0,1]`. -/
lemma rot3_mul (A B : M4) (hB : IsHomRow B) :
    rot3 (A * B) = rot3 A * rot3 B := by
  funext i j
  have hj : j.castSucc ≠ (3 : Fin 4) := by
    intro h
    have := congrArg Fin.val h
    simp [Fin.castSucc, Fin.castAdd, Fin.castLE] at this
    omega
  have hB3 : B 3 j.castSucc = 0 := by
    rw [hB j.castSucc, if_neg hj]
  have hc0 : ((0 : Fin 3).castSucc : Fin 4) = 0 := rfl
  have hc1 : ((1 : Fin 3).castSucc : Fin 4) = 1 := rfl
  have hc2 : ((2 : Fin 3).castSucc : Fin 4) = 2 := rfl
  simp only [rot3, Matrix.mul_apply, Fin.sum_univ_four, Fin.sum_univ_three,
    hc0, hc1, hc2, hB3, mul_zero, add_zero]

/-- The routine `quaternion_matrix` always has homogeneous last row
`[0,0,0,1]` (both in its identity branch and its generic branch). -/
lemma quaternion_matrix_homRow (q : Fin 4 → ℚ) :
    IsHomRow (quaternion_matrix q) := by
  intro j
  simp only [quaternion_matrix]
  by_cases h : q 0 * q 0 + q 1 * q 1 + q 2 * q 2 + q 3 * q 3 < 1 / 2 ^ 50
  · rw [if_pos h]
    by_cases hj : j = 3
    · subst hj
      simp [Matrix.one_apply]
    · rw [if_neg hj]
      exact Matrix.one_apply_ne (Ne.symm hj)
  · rw [if_neg h]
    by_cases hj : j = 3
    · subst hj
      rfl
    · rw [if_neg hj]
      fin_cases j
      · rfl
      · rfl
      · rfl
      · exact absurd rfl hj

/-- Overwriting the fourth column with the homogeneous position column keeps
the last row `[0,0,0,1]`. -/
lemma updateColumn_homCol_homRow (q : Fin 4 → ℚ) (p : Fin 3 → ℚ) :
    IsHomRow (Matrix.updateColumn (quaternion_matrix q) 3 (homCol p)) := by
  intro j
  by_cases hj : j = 3
  · subst hj
    rw [Matrix.updateColumn_self]
    simp [homCol]
  · rw [Matrix.updateColumn_ne hj, if_neg hj]
    rw [quaternion_matrix_homRow q j, if_neg hj]

/-- The rotation block of the converter output factors through the three
rotation blocks. -/
lemma rot3_convert_coordinate_frame (enu_T_unity blh_T_brh : M4)
    (p : Fin 3 → ℚ) (q : Fin 4 → ℚ) (hB : IsHomRow blh_T_brh) :
    rot3 (convert_coordinate_frame enu_T_unity blh_T_brh p q) =
      rot3 enu_T_unity * rot3 (quaternion_matrix q) * rot3 blh_T_brh := by
  have hU : IsHomRow (Matrix.updateColumn (quaternion_matrix q) 3 (homCol p)) :=
    updateColumn_homCol_homRow q p
  have hrotU : rot3 (Matrix.updateColumn (quaternion_matrix q) 3 (homCol p)) =
      rot3 (quaternion_matrix q) :=
    (convert_coordinate_frame_spec enu_T_unity blh_T_brh p q).2.1
  show rot3 (enu_T_unity * Matrix.updateColumn (quaternion_matrix q) 3 (homCol p) * blh_T_brh) = _
  rw [rot3_mul _ _ hB, rot3_mul _ _ hU, hrotU]

/-- C9: if the quaternion yields an orthonormal rotation block and the two
frame-remap constants are homogeneous transforms with orthonormal rotation
blocks, the rotation block `R` of the converter output satisfies
`|det R − 1| ≤ 1e-9` and `|(Rᵀ·R − I)_{ij}| ≤ 1e-9` — in the exact
arithmetic of the embedding it is orthonormal on the nose. -/
theorem convert_coordinate_frame_orthonormal (enu_T_unity blh_T_brh : M4)
    (p : Fin 3 → ℚ) (q : Fin 4 → ℚ)
    (_hUrow : IsHomRow enu_T_unity) (hBrow : IsHomRow blh_T_brh)
    (hU : OrthoRot (rot3 enu_T_unity)) (hB : OrthoRot (rot3 blh_T_brh))
    (hq : OrthoRot (rot3 (quaternion_matrix q))) :
    |(rot3 (convert_coordinate_frame enu_T_unity blh_T_brh p q)).det - 1| ≤ 1 / 1000000000
    ∧ ∀ i j : Fin 3,
        |((rot3 (convert_coordinate_frame enu_T_unity blh_T_brh p q)).transpose *
            rot3 (convert_coordinate_frame enu_T_unity blh_T_brh p q)) i j -
          (1 : M3) i j| ≤ 1 / 1000000000 := by
  have hfac := rot3_convert_coordinate_frame enu_T_unity blh_T_brh p q hBrow
  constructor
  · rw [hfac, Matrix.det_mul, Matrix.det_mul, hU.2, hq.2, hB.2]
    norm_num
  · intro i j
    have hRtR : (rot3 (convert_coordinate_frame enu_T_unity blh_T_brh p q)).transpose *
        rot3 (convert_coordinate_frame enu_T_unity blh_T_brh p q) = 1 := by
      rw [hfac, Matrix.transpose_mul, Matrix.transpose_mul]
      simp only [Matrix.mul_assoc]
      rw [← Matrix.mul_assoc (rot3 enu_T_unity).transpose (rot3 enu_T_unity),
        hU.1, Matrix.one_mul,
        ← Matrix.mul_assoc (rot3 (quaternion_matrix q)).transpose (rot3 (quaternion_matrix q)),
        hq.1, Matrix.one_mul, hB.1]
    rw [hRtR]
    norm_num

/-- On the unit quaternion `(0,0,0,1)` the routine returns the identity. -/
lemma quaternion_matrix_unit : quaternion_matrix ![0, 0, 0, 1] = (1 : M4) := by
  simp only [quaternion_matrix]
  rw [if_neg (by norm_num)]
  funext i j
  fin_cases i <;> fin_cases j <;> norm_num [Matrix.one_apply, Fin.ext_iff]

theorem convert_coordinate_frame_orthonormal_witness :
    IsHomRow (1 : M4) ∧ OrthoRot (rot3 (1 : M4))
    ∧ OrthoRot (rot3 (quaternion_matrix ![0, 0, 0, 1]))
    ∧ (|(rot3 (convert_coordinate_frame 1 1 ![0, 0, 0] ![0, 0, 0, 1])).det - 1| ≤ 1 / 1000000000
       ∧ ∀ i j : Fin 3,
          |((rot3 (convert_coordinate_frame 1 1 ![0, 0, 0] ![0, 0, 0, 1])).transpose *
              rot3 (convert_coordinate_frame 1 1 ![0, 0, 0] ![0, 0, 0, 1])) i j -
            (1 : M3) i j| ≤ 1 / 1000000000) := by
  have hrow : IsHomRow (1 : M4) := by unfold IsHomRow; decide
  have hrot1 : rot3 (1 : M4) = 1 := by decide
  have hrotq : rot3 (quaternion_matrix ![0, 0, 0, 1]) = 1 := by
    rw [quaternion_matrix_unit, hrot1]
  have h1 : OrthoRot (rot3 (1 : M4)) := by
    unfold OrthoRot
    rw [hrot1]
    exact ⟨by rw [Matrix.transpose_one, Matrix.mul_one], Matrix.det_one⟩
  have hq : OrthoRot (rot3 (quaternion_matrix ![0, 0, 0, 1])) := by
    unfold OrthoRot
    rw [hrotq]
    exact ⟨by rw [Matrix.transpose_one, Matrix.mul_one], Matrix.det_one⟩
  exact ⟨hrow, h1, hq,
    convert_coordinate_frame_orthonormal 1 1 ![0, 0, 0] ![0, 0, 0, 1] hrow hrow h1 h1 hq⟩

/-! ## MessageBuilder: `metadata_to_imu` (utils.py lines 149-181)

The records model only the fields the function reads and writes. -/

/-- A `ProcessedMetadata` record as produced by `process_metadata`. -/
structure ProcessedMetadata where
  position : Fin 3 → ℚ
  quaternion : Fin 4 → ℚ
  velocity : Fin 3 → ℚ
  ang_vel : Fin 3 → ℚ
  acceleration : Fin 3 → ℚ
  time : ℚ
  collision_status : Bool
  transform : M4

/-- The fields of the ROS `Imu` message the builder assigns. -/
structure Imu where
  stamp : ℚ
  frame_id : String
  angular_velocity : Fin 3 → ℚ
  linear_acceleration : Fin 3 → ℚ

/-- `metadata_to_imu(processed_metadata, timestamp, frame_id)`.  The ENU
gravity constant `gravity_enu` (from the `tesse_ros_bridge` package
`__init__`, outside the sources) is a parameter.  The Python body computes
`enu_R_brh = processed_metadata['transform'][:3,:3]`,
`g_brh = np.transpose(enu_R_brh).dot(gravity_enu)` and assigns
`acceleration[i] - g_brh[i]` componentwise; angular velocity is copied. -/
def metadata_to_imu (processed_metadata : ProcessedMetadata) (timestamp : ℚ)
    (frame_id : String) (gravity_enu : Fin 3 → ℚ) : Imu :=
  let enu_R_brh := rot3 processed_metadata.transform
  let g_brh := enu_R_brh.transpose.mulVec gravity_enu
  { stamp := timestamp
    frame_id := frame_id
    angular_velocity := fun i => processed_metadata.ang_vel i
    linear_acceleration := fun i => processed_metadata.acceleration i - g_brh i }

/-- C10: the IMU builder sets linear acceleration to the record's body-frame
acceleration minus the body-frame gravity `Rᵀ·g_enu` (componentwise), with
`R` the rotation block of the record's `transform`, and copies the record's
angular velocity unchanged. -/
theorem metadata_to_imu_fields (m : ProcessedMetadata) (timestamp : ℚ)
    (frame_id : String) (gravity_enu : Fin 3 → ℚ) :
    (metadata_to_imu m timestamp frame_id gravity_enu).linear_acceleration =
      (fun i => m.acceleration i -
        (rot3 m.transform).transpose.mulVec gravity_enu i)
    ∧ (metadata_to_imu m timestamp frame_id gravity_enu).angular_velocity =
      m.ang_vel := by
  exact ⟨rfl, rfl⟩

/-! ## CameraIntrinsicsCalculator: `generate_camera_info` (utils.py lines 184-270)
and `make_camera_info_msg` (lines 274-322)

Python ints are `ℤ`, floats are `ℝ`.  `/` on the pixel dimensions is Python 3
true division (exact `ℝ` division), `//` is floor division (`Int.fdiv`).
The eight `assert` sites become eight error tags of `CamAssert`, tested in
the source's order. -/

/-- `np.deg2rad`. -/
noncomputable def deg2rad (x : ℝ) : ℝ := x * Real.pi / 180

/-- `np.rad2deg`. -/
noncomputable def rad2deg (x : ℝ) : ℝ := x * 180 / Real.pi

/-- A `ParsedCameraRequest` record, as produced by `parse_cam_data`. -/
structure ParsedCamData where
  name : String
  id : ℤ
  width : ℤ
  height : ℤ
  fov : ℝ
  position : Fin 3 → ℝ
  quaternion : Fin 4 → ℝ
  near : ℝ
  far : ℝ

/-- The fields of the ROS `CameraInfo` message assigned by
`make_camera_info_msg`; the matrices are the flat row-major lists of the
source. -/
structure CameraInfo where
  frame_id : String
  width : ℤ
  height : ℤ
  K : List ℝ
  R : List ℝ
  distortion_model : String
  D : List ℝ
  P : List ℝ

/-- `make_camera_info_msg(frame_id, width, height, fx, fy, cx, cy, Tx, Ty)`
(utils.py lines 274-322), field for field. -/
def make_camera_info_msg (frame_id : String) (width height : ℤ)
    (fx fy cx cy Tx Ty : ℝ) : CameraInfo :=
  { frame_id := frame_id
    width := width
    height := height
    K := [fx, 0, cx,
          0, fy, cy,
          0, 0, 1]
    R := [1, 0, 0,
          0, 1, 0,
          0, 0, 1]
    distortion_model := "plumb_bob"
    D := [0, 0, 0, 0]
    P := [fx, 0, cx, Tx,
          0, fy, cy, Ty,
          0, 0, 1, 0] }

/-- One tag per `assert` site of `generate_camera_info`, in source order. -/
inductive CamAssert where
  | widthMismatch
  | heightMismatch
  | fovMismatch
  | heightNotPos
  | widthNotPos
  | fxNeFy
  | cxNotInt
  | cyNotInt
deriving DecidableEq

/-- The first five asserts (lines 211-217) are the invalid-configuration
preconditions; the remaining three fire only after the intrinsics
computation has started. -/
def CamAssert.isPrecond : CamAssert → Bool
  | .widthMismatch | .heightMismatch | .fovMismatch | .heightNotPos | .widthNotPos => true
  | .fxNeFy | .cxNotInt | .cyNotInt => false

/-- Line 230: `fov_horizontal_left = np.rad2deg(2.0 * np.arctan(
np.tan(np.deg2rad(fov_vertical_left) / 2.0) * width_left / height_left))`. -/
noncomputable def fov_horizontal (width height : ℤ) (fov_vertical : ℝ) : ℝ :=
  rad2deg (2 * Real.arctan (Real.tan (deg2rad fov_vertical / 2) * (width : ℝ) / (height : ℝ)))

/-- Line 231: `fx = (width_left / 2.0) / np.tan(np.deg2rad(fov_horizontal_left) / 2.0)`. -/
noncomputable def fx_calc (width height : ℤ) (fov_vertical : ℝ) : ℝ :=
  ((width : ℝ) / 2) / Real.tan (deg2rad (fov_horizontal width height fov_vertical) / 2)

/-- Line 232: `fy = (height_left / 2.0) / np.tan(np.deg2rad(fov_vertical_left) / 2.0)`. -/
noncomputable def fy_calc (height : ℤ) (fov_vertical : ℝ) : ℝ :=
  ((height : ℝ) / 2) / Real.tan (deg2rad fov_vertical / 2)

open scoped Classical

/-- `generate_camera_info(left_cam_data, right_cam_data)` (lines 184-270):
the five precondition asserts, the horizontal-FOV/focal-length formulas, the
square-pixel assert, the principal point with its floor-division asserts,
the baseline and the two `CameraInfo` messages. -/
noncomputable def generate_camera_info (left_cam_data right_cam_data : ParsedCamData) :
    Except CamAssert (CameraInfo × CameraInfo) :=
  if left_cam_data.width = right_cam_data.width then
    if left_cam_data.height = right_cam_data.height then
      if left_cam_data.fov = right_cam_data.fov then
        if 0 < left_cam_data.height then
          if 0 < left_cam_data.width then
            let fx := fx_calc left_cam_data.width left_cam_data.height left_cam_data.fov
            let fy := fy_calc left_cam_data.height left_cam_data.fov
            if fx = fy then
              let cx := (left_cam_data.width : ℝ) / 2
              let cy := (left_cam_data.height : ℝ) / 2
              if cx = ((Int.fdiv left_cam_data.width 2 : ℤ) : ℝ) then
                if cy = ((Int.fdiv left_cam_data.height 2 : ℤ) : ℝ) then
                  let baseline := |left_cam_data.position 0 - right_cam_data.position 0|
                  let Tx : ℝ := 0
                  let Ty : ℝ := 0
                  let Tx_right := -fx * baseline
                  Except.ok
                    (make_camera_info_msg "left_cam" left_cam_data.width left_cam_data.height
                        fx fy cx cy Tx Ty,
                     make_camera_info_msg "right_cam" left_cam_data.width left_cam_data.height
                        fx fy cx cy Tx_right Ty)
                else Except.error CamAssert.cyNotInt
              else Except.error CamAssert.cxNotInt
            else Except.error CamAssert.fxNeFy
          else Except.error CamAssert.widthNotPos
        else Except.error CamAssert.heightNotPos
      else Except.error CamAssert.fovMismatch
    else Except.error CamAssert.heightMismatch
  else Except.error CamAssert.widthMismatch

/-- C8: the message builder produces exactly the claimed `K`, identity `R`,
`"plumb_bob"` with zero coefficients, and `P` with the stereo column. -/
theorem make_camera_info_msg_layout (frame_id : String) (width height : ℤ)
    (fx fy cx cy Tx Ty : ℝ) :
    (make_camera_info_msg frame_id width height fx fy cx cy Tx Ty).K =
        [fx, 0, cx, 0, fy, cy, 0, 0, 1]
    ∧ (make_camera_info_msg frame_id width height fx fy cx cy Tx Ty).R =
        [1, 0, 0, 0, 1, 0, 0, 0, 1]
    ∧ (make_camera_info_msg frame_id width height fx fy cx cy Tx Ty).distortion_model =
        "plumb_bob"
    ∧ (make_camera_info_msg frame_id width height fx fy cx cy Tx Ty).D = [0, 0, 0, 0]
    ∧ (make_camera_info_msg frame_id width height fx fy cx cy Tx Ty).P =
        [fx, 0, cx, Tx, 0, fy, cy, Ty, 0, 0, 1, 0] :=
  ⟨rfl, rfl, rfl, rfl, rfl⟩

/-- C5: the calculator fails with one of the five precondition tags — before
any intrinsics arithmetic — exactly when one of the five invalid-configuration
preconditions is violated; when all five hold, none of those checks fires. -/
theorem generate_camera_info_preconditions (l r : ParsedCamData) :
    (∃ e, generate_camera_info l r = Except.error e ∧ e.isPrecond = true)
      ↔ ¬(l.width = r.width ∧ l.height = r.height ∧ l.fov = r.fov
          ∧ 0 < l.width ∧ 0 < l.height) := by
  simp only [generate_camera_info]
  split_ifs with h1 h2 h3 h4 h5 h6 h7 h8 <;> simp [CamAssert.isPrecond] <;>
    first
    | tauto
    | omega

/-- `deg2rad` undoes `rad2deg` exactly (in the exact-real embedding the
degree/radian round trip of lines 230-231 cancels). -/
lemma deg2rad_rad2deg (x : ℝ) : deg2rad (rad2deg x) = x := by
  unfold deg2rad rad2deg
  field_simp

/-- For a vertical FOV strictly between 0 and 180 degrees, the half-angle
tangent is strictly positive. -/
lemma tan_half_fov_pos (fov : ℝ) (h0 : 0 < fov) (h180 : fov < 180) :
    0 < Real.tan (deg2rad fov / 2) := by
  apply Real.tan_pos_of_pos_of_lt_pi_div_two
  · unfold deg2rad
    positivity
  · unfold deg2rad
    nlinarith [Real.pi_pos]

/-- C6: under positive pixel dimensions and a vertical FOV strictly between
0 and 180 degrees, the derived focal lengths coincide (`fx = fy`), so the
square-pixel assert of line 238 can never fire. -/
theorem generate_camera_info_square_pixel (l r : ParsedCamData)
    (hw : 0 < l.width) (hh : 0 < l.height) (h0 : 0 < l.fov) (h180 : l.fov < 180) :
    fx_calc l.width l.height l.fov = fy_calc l.height l.fov
    ∧ generate_camera_info l r ≠ Except.error CamAssert.fxNeFy := by
  have ht : 0 < Real.tan (deg2rad l.fov / 2) := tan_half_fov_pos l.fov h0 h180
  have hwR : (0 : ℝ) < (l.width : ℝ) := by exact_mod_cast hw
  have hhR : (0 : ℝ) < (l.height : ℝ) := by exact_mod_cast hh
  have hfx : fx_calc l.width l.height l.fov = fy_calc l.height l.fov := by
    unfold fx_calc fov_horizontal fy_calc
    rw [deg2rad_rad2deg, mul_div_cancel_left₀ _ (two_ne_zero), Real.tan_arctan]
    field_simp
    ring
  refine ⟨hfx, ?_⟩
  simp only [generate_camera_info]
  split_ifs with h1 h2 h3 h4 h5 h6 h7 h8 <;>
    first
    | exact absurd hfx h6
    | simp

/-- A concrete left camera: 640×640 pixels, 90° vertical FOV, at the body
origin. -/
noncomputable def camL0 : ParsedCamData :=
  { name := "left", id := 0, width := 640, height := 640, fov := 90,
    position := ![0, 0, 0], quaternion := ![0, 0, 0, 1], near := 0, far := 50 }

/-- A concrete right camera matching `camL0`, offset by −0.1 on the x
axis. -/
noncomputable def camR0 : ParsedCamData :=
  { name := "right", id := 1, width := 640, height := 640, fov := 90,
    position := ![-(1/10), 0, 0], quaternion := ![0, 0, 0, 1], near := 0, far := 50 }

theorem generate_camera_info_square_pixel_witness :
    ((0 : ℤ) < 640 ∧ (0 : ℝ) < 90 ∧ (90 : ℝ) < 180)
    ∧ (fx_calc camL0.width camL0.height camL0.fov = fy_calc camL0.height camL0.fov
       ∧ generate_camera_info camL0 camR0 ≠ Except.error CamAssert.fxNeFy) :=
  ⟨⟨by norm_num, by norm_num, by norm_num⟩,
   generate_camera_info_square_pixel camL0 camR0 (by norm_num [camL0]) (by norm_num [camL0])
     (by norm_num [camL0]) (by norm_num [camL0])⟩

lemma deg2rad_ninety : deg2rad 90 / 2 = Real.pi / 4 := by
  unfold deg2rad
  ring

lemma fy_sample : fy_calc 640 90 = 320 := by
  unfold fy_calc
  rw [deg2rad_ninety, Real.tan_pi_div_four]
  push_cast
  norm_num

lemma fov_h_sample : fov_horizontal 640 640 90 = 90 := by
  unfold fov_horizontal
  rw [deg2rad_ninety, Real.tan_pi_div_four]
  rw [show (1 : ℝ) * ((640 : ℤ) : ℝ) / ((640 : ℤ) : ℝ) = 1 by push_cast; norm_num]
  rw [Real.arctan_one]
  unfold rad2deg
  field_simp
  ring

lemma fx_sample : fx_calc 640 640 90 = 320 := by
  unfold fx_calc
  rw [fov_h_sample, deg2rad_ninety, Real.tan_pi_div_four]
  push_cast
  norm_num

/-- The concrete pair `camL0`, `camR0` passes all eight asserts and yields
`fx = fy = 320`, `cx = cy = 320`, `Tx_right = −32`. -/
lemma sample_run : generate_camera_info camL0 camR0 =
    Except.ok
      (make_camera_info_msg "left_cam" 640 640 320 320 320 320 0 0,
       make_camera_info_msg "right_cam" 640 640 320 320 320 320 (-32) 0) := by
  have habs : |(0 : ℝ) - -(1 / 10)| = 1 / 10 := by
    rw [show (0 : ℝ) - -(1 / 10) = 1 / 10 by ring]
    rw [abs_of_pos]
    norm_num
  simp only [generate_camera_info, camL0, camR0]
  simp only [if_true]
  rw [if_pos (by norm_num : (0 : ℤ) < 640), if_pos (by norm_num : (0 : ℤ) < 640),
    if_pos (fx_sample.trans fy_sample.symm),
    if_pos (by push_cast [show Int.fdiv 640 2 = 320 from rfl]; norm_num),
    if_pos (by push_cast [show Int.fdiv 640 2 = 320 from rfl]; norm_num)]
  simp only [Matrix.cons_val_zero, fx_sample, fy_sample]
  rw [habs]
  norm_num

/-- C4: whenever the calculator succeeds, the quantities it computed are
exactly `fov_h = 2·atan(tan(fov_v/2)·w/h)` (with the degree/radian
conversions of the source), `fx = (w/2)/tan(fov_h/2)`,
`fy = (h/2)/tan(fov_v/2)`, `baseline = |left.position.x − right.position.x|`,
and the returned messages carry `Tx_left = 0`, `Tx_right = −fx·baseline` and
`Ty = 0`. -/
theorem generate_camera_info_formulas (l r : ParsedCamData) (mL mR : CameraInfo)
    (h : generate_camera_info l r = Except.ok (mL, mR)) :
    fov_horizontal l.width l.height l.fov =
        rad2deg (2 * Real.arctan (Real.tan (deg2rad l.fov / 2) * (l.width : ℝ) / (l.height : ℝ)))
    ∧ fx_calc l.width l.height l.fov =
        ((l.width : ℝ) / 2) / Real.tan (deg2rad (fov_horizontal l.width l.height l.fov) / 2)
    ∧ fy_calc l.height l.fov = ((l.height : ℝ) / 2) / Real.tan (deg2rad l.fov / 2)
    ∧ mL = make_camera_info_msg "left_cam" l.width l.height
        (fx_calc l.width l.height l.fov) (fy_calc l.height l.fov)
        ((l.width : ℝ) / 2) ((l.height : ℝ) / 2) 0 0
    ∧ mR = make_camera_info_msg "right_cam" l.width l.height
        (fx_calc l.width l.height l.fov) (fy_calc l.height l.fov)
        ((l.width : ℝ) / 2) ((l.height : ℝ) / 2)
        (-fx_calc l.width l.height l.fov * |l.position 0 - r.position 0|) 0 := by
  refine ⟨rfl, rfl, rfl, ?_, ?_⟩ <;>
  · simp only [generate_camera_info] at h
    split_ifs at h
    simp only [Except.ok.injEq, Prod.mk.injEq] at h
    first
    | exact h.1.symm
    | exact h.2.symm

theorem generate_camera_info_formulas_witness :
    generate_camera_info camL0 camR0 =
      Except.ok
        (make_camera_info_msg "left_cam" 640 640 320 320 320 320 0 0,
         make_camera_info_msg "right_cam" 640 640 320 320 320 320 (-32) 0)
    ∧ (fov_horizontal camL0.width camL0.height camL0.fov =
        rad2deg (2 * Real.arctan (Real.tan (deg2rad camL0.fov / 2) *
          (camL0.width : ℝ) / (camL0.height : ℝ)))
      ∧ fx_calc camL0.width camL0.height camL0.fov =
          ((camL0.width : ℝ) / 2) /
            Real.tan (deg2rad (fov_horizontal camL0.width camL0.height camL0.fov) / 2)
      ∧ fy_calc camL0.height camL0.fov =
          ((camL0.height : ℝ) / 2) / Real.tan (deg2rad camL0.fov / 2)
      ∧ make_camera_info_msg "left_cam" 640 640 320 320 320 320 0 0 =
          make_camera_info_msg "left_cam" camL0.width camL0.height
            (fx_calc camL0.width camL0.height camL0.fov) (fy_calc camL0.height camL0.fov)
            ((camL0.width : ℝ) / 2) ((camL0.height : ℝ) / 2) 0 0
      ∧ make_camera_info_msg "right_cam" 640 640 320 320 320 320 (-32) 0 =
          make_camera_info_msg "right_cam" camL0.width camL0.height
            (fx_calc camL0.width camL0.height camL0.fov) (fy_calc camL0.height camL0.fov)
            ((camL0.width : ℝ) / 2) ((camL0.height : ℝ) / 2)
            (-fx_calc camL0.width camL0.height camL0.fov *
              |camL0.position 0 - camR0.position 0|) 0) :=
  ⟨sample_run, generate_camera_info_formulas camL0 camR0 _ _ sample_run⟩

/-- The Python-3 true-division principal point `width / 2` agrees with the
floor division `width // 2` exactly for even `width`. -/
lemma half_eq_fdiv_iff (w : ℤ) :
    ((w : ℝ) / 2 = ((Int.fdiv w 2 : ℤ) : ℝ)) ↔ 2 ∣ w := by
  constructor
  · intro h
    have h2 : (w : ℝ) = 2 * ((Int.fdiv w 2 : ℤ) : ℝ) := by
      field_simp at h
      linarith
    have h3 : w = 2 * Int.fdiv w 2 := by exact_mod_cast h2
    exact ⟨Int.fdiv w 2, h3⟩
  · rintro ⟨k, rfl⟩
    rw [Int.mul_fdiv_cancel_left _ (by norm_num : (2 : ℤ) ≠ 0)]
    push_cast
    ring

/-- C7: the calculator's principal point is `cx = width/2`, `cy = height/2`,
and its floor-division asserts (`cx == width // 2`, `cy == height // 2`)
hold exactly when width and height are even — for odd dimensions floor and
true division diverge and the run fails; in particular every successful run
has even width and height. -/
theorem generate_camera_info_principal_point :
    (∀ w : ℤ, ((w : ℝ) / 2 = ((Int.fdiv w 2 : ℤ) : ℝ)) ↔ 2 ∣ w)
    ∧ ∀ (l r : ParsedCamData) (out : CameraInfo × CameraInfo),
        generate_camera_info l r = Except.ok out → 2 ∣ l.width ∧ 2 ∣ l.height := by
  refine ⟨half_eq_fdiv_iff, ?_⟩
  intro l r out h
  simp only [generate_camera_info] at h
  split_ifs at h with h1 h2 h3 h4 h5 h6 h7 h8
  exact ⟨(half_eq_fdiv_iff l.width).mp h7, (half_eq_fdiv_iff l.height).mp h8⟩

theorem generate_camera_info_principal_point_witness :
    generate_camera_info camL0 camR0 =
      Except.ok
        (make_camera_info_msg "left_cam" 640 640 320 320 320 320 0 0,
         make_camera_info_msg "right_cam" 640 640 320 320 320 320 (-32) 0)
    ∧ (2 ∣ camL0.width ∧ 2 ∣ camL0.height) :=
  ⟨sample_run, generate_camera_info_principal_point.2 camL0 camR0 _ sample_run⟩

theorem generate_camera_info_preconditions_witness :
    (∃ e, generate_camera_info camL0
        { camR0 with width := 641 } = Except.error e ∧ e.isPrecond = true)
      ↔ ¬(camL0.width = ({ camR0 with width := 641 } : ParsedCamData).width
          ∧ camL0.height = ({ camR0 with width := 641 } : ParsedCamData).height
          ∧ camL0.fov = ({ camR0 with width := 641 } : ParsedCamData).fov
          ∧ 0 < camL0.width ∧ 0 < camL0.height) :=
  generate_camera_info_preconditions camL0 { camR0 with width := 641 }

end Tesse
